import Mathlib

/-!
Verification development for the 3-Click Section tool
(`ARCLAB.tab/Section.panel/3 Click.pushbutton/script.py`).

The geometry kernel of the script operates on Revit `DB.XYZ` values; these are
modelled as triples of real numbers.  The interactive session
(`create_3_click_section`) is modelled as a function from an environment
(the results of the three pick requests, the context checks, and view-type
availability) to an observable run result (alerts shown, transaction-group
state, overlay artifacts committed, whether the section view was created,
and whether the script exited via an `exitscript` alert).
-/

open Real

set_option maxHeartbeats 1000000

/-- Revit 3D point / vector (`DB.XYZ`), coordinates modelled as reals. -/
@[ext]
structure XYZ where
  x : ℝ
  y : ℝ
  z : ℝ

instance : Sub XYZ := ⟨fun a b => ⟨a.x - b.x, a.y - b.y, a.z - b.z⟩⟩

instance : Neg XYZ := ⟨fun a => ⟨-a.x, -a.y, -a.z⟩⟩

theorem XYZ.sub_def (a b : XYZ) : a - b = ⟨a.x - b.x, a.y - b.y, a.z - b.z⟩ := rfl

theorem XYZ.neg_def (a : XYZ) : -a = ⟨-a.x, -a.y, -a.z⟩ := rfl

/-- `DB.XYZ.GetLength()`: the Euclidean norm. -/
noncomputable def XYZ.GetLength (v : XYZ) : ℝ := Real.sqrt (v.x ^ 2 + v.y ^ 2 + v.z ^ 2)

/-- `DB.XYZ.DotProduct`. -/
def XYZ.DotProduct (a b : XYZ) : ℝ := a.x * b.x + a.y * b.y + a.z * b.z

/-- `DB.XYZ.CrossProduct`. -/
def XYZ.CrossProduct (a b : XYZ) : XYZ :=
  ⟨a.y * b.z - a.z * b.y, a.z * b.x - a.x * b.z, a.x * b.y - a.y * b.x⟩

/-- `DB.XYZ.BasisZ`. -/
def XYZ.basisZ : XYZ := ⟨0, 0, 1⟩

/-- `DB.XYZ.Normalize()`: scales the vector to unit length; the zero vector
is returned unchanged (degenerate input). -/
noncomputable def XYZ.Normalize (v : XYZ) : XYZ :=
  if v.GetLength = 0 then ⟨0, 0, 0⟩
  else ⟨v.x / v.GetLength, v.y / v.GetLength, v.z / v.GetLength⟩

/-- Script setting `ORTHO_TOLERANCE_DEGREES = 15`. -/
def ORTHO_TOLERANCE_DEGREES : ℝ := 15

/-- Script setting `MIN_SECTION_LENGTH_MM = 50`. -/
def MIN_SECTION_LENGTH_MM : ℝ := 50

/-- Script setting `MIN_DEPTH_MM = 50`. -/
def MIN_DEPTH_MM : ℝ := 50

/-- Script setting `DEFAULT_DEPTH_MM = 500`. -/
def DEFAULT_DEPTH_MM : ℝ := 500

/-- `mm_to_ft`: `DB.UnitUtils.ConvertToInternalUnits(mm, Millimeters)`,
i.e. division by 304.8 (mm per foot). -/
noncomputable def mm_to_ft (mm : ℝ) : ℝ := mm / 304.8

/-- `snap_ortho_with_tolerance` (script lines 62-88): checks the angle of the
line `p1 -> p2`; if it is within `tolerance_degrees` of an axis, snaps the
second point orthogonal.  `math.radians(d) = d * pi / 180`. -/
noncomputable def snap_ortho_with_tolerance (p1 p2 : XYZ) (tolerance_degrees : ℝ) : XYZ :=
  let vec := p2 - p1
  let length := vec.GetLength
  if length < 0.001 then p2
  else
    let threshold := Real.cos (tolerance_degrees * Real.pi / 180)
    let norm_x := |vec.x / length|
    let norm_y := |vec.y / length|
    if norm_x > threshold then ⟨p2.x, p1.y, p2.z⟩
    else if norm_y > threshold then ⟨p1.x, p2.y, p2.z⟩
    else p2

/-- Script line 188: `ortho_dir = vec_line.CrossProduct(DB.XYZ.BasisZ).Normalize()`. -/
noncomputable def perpendicular_direction (vec_line : XYZ) : XYZ :=
  (vec_line.CrossProduct XYZ.basisZ).Normalize

/-- Script lines 192-195: flip the candidate direction so that it points
towards the third pick. -/
noncomputable def resolve_view_direction (ortho_dir vec_to_depth : XYZ) : XYZ :=
  if ortho_dir.DotProduct vec_to_depth < 0 then -ortho_dir else ortho_dir

/-- Script lines 197-201: the far-clip depth; `abs` of the projection of the
third pick onto the view direction, replaced by the configured default when
strictly below the configured minimum. -/
noncomputable def compute_depth (view_dir vec_to_depth : XYZ) : ℝ :=
  let depth_dist_ft := |view_dir.DotProduct vec_to_depth|
  if depth_dist_ft < mm_to_ft MIN_DEPTH_MM then mm_to_ft DEFAULT_DEPTH_MM
  else depth_dist_ft

/-- A Revit `DB.Level`: an element id together with its `Elevation`.
Elevations are modelled as rationals so that the sorting and the lookup
performed by `get_upper_level` stay executable. -/
structure Level where
  id : ℕ
  elevation : ℚ
  deriving DecidableEq

/-- The comparison key used by `sorted(all_levels, key=lambda l: l.Elevation)`. -/
def level_le (a b : Level) : Bool := decide (a.elevation ≤ b.elevation)

/-- The scan inside `get_upper_level` (script lines 42-46): walk the sorted
list; at the first element whose id equals the current level's id, return the
following element if there is one; otherwise keep scanning and finally
return `None`. -/
def find_next_level (cur : Level) : List Level → Option Level
  | [] => none
  | a :: rest => if a.id = cur.id then rest.head? else find_next_level cur rest

/-- `get_upper_level` (script lines 37-46): sort all levels by elevation
ascending, then return the level immediately after the current one. -/
def get_upper_level (levels : List Level) (cur : Level) : Option Level :=
  find_next_level cur (levels.mergeSort level_le)

/-- Script setting `DEFAULT_HEIGHT_MM = 3000`, converted by `mm_to_ft`
(rational variant, `304.8 = 3048/10`). -/
def DEFAULT_HEIGHT_FT : ℚ := 3000 / (304.8 : ℚ)

/-- Script lines 203-208: the section height; the elevation difference to the
level above, or the converted default when no level lies above. -/
def section_height (levels : List Level) (cur : Level) : ℚ :=
  match get_upper_level levels cur with
  | some upper => upper.elevation - cur.elevation
  | none => DEFAULT_HEIGHT_FT

/-- Result of one `uidoc.Selection.PickPoint` call: either a picked point, or
an exception raised by the host (user cancellation raises an
operation-canceled exception; `msg` is the string `str(e)` that the script's
handler sees). -/
inductive PickResult where
  | ok (p : XYZ)
  | exn (msg : String)

/-- State of the outer `TransactionGroup` when the script ends. -/
inductive TGState where
  | notStarted
  | openLeft
  | rolledBack
  | assimilated
  deriving DecidableEq

/-- Environment of one run of `create_3_click_section`: the context checks,
the three pick requests, and whether `get_default_section_type` resolves a
view-family type. -/
structure Env where
  viewIsPlan : Bool
  hasLevel : Bool
  pick1 : PickResult
  pick2 : PickResult
  pick3 : PickResult
  sectionTypeAvailable : Bool

/-- Observable outcome of one run: alerts shown, final transaction-group
state, overlay artifact ids committed inside the group, whether the
transaction deleting the overlays was committed, whether the section view
was created, and whether the script exited through an `exitscript` alert. -/
structure RunResult where
  alerts : List String
  tg : TGState
  overlaysCommitted : List ℕ
  overlayDeleteCommitted : Bool
  sectionCreated : Bool
  scriptExited : Bool
  deriving DecidableEq

/-- `startsWithChars hay needle`: the character list `needle` is an initial
segment of `hay`. -/
def startsWithChars : List Char → List Char → Bool
  | _, [] => true
  | [], _ :: _ => false
  | a :: hs, b :: ns => a = b && startsWithChars hs ns

/-- `containsChars hay needle`: `needle` occurs contiguously inside `hay`. -/
def containsChars : List Char → List Char → Bool
  | [], needle => startsWithChars [] needle
  | a :: hs, needle => startsWithChars (a :: hs) needle || containsChars hs needle

/-- Python's `needle in hay` on strings: substring containment. -/
def pyIn (needle hay : String) : Bool := containsChars hay.toList needle.toList

/-- The `except Exception` handler (script lines 250-253): roll the
transaction group back, then alert unless the exception message contains
`"Operation canceled"`. -/
def handlerResult (msg : String) (created : List ℕ) : RunResult :=
  { alerts := if pyIn "Operation canceled" msg then [] else ["Error: " ++ msg]
    tg := .rolledBack
    overlaysCommitted := created
    overlayDeleteCommitted := false
    sectionCreated := false
    scriptExited := false }

/-- `create_3_click_section` (script lines 121-253), modelled as a function
from the run environment to the observable run result.  Control flow,
transaction operations, overlay bookkeeping and alerts are mirrored
branch-for-branch; geometric quantities that do not influence control flow
(midpoint, transform, depth, height) do not show up in the result.
`forms.alert(..., exitscript=True)` shows the alert and then raises
`SystemExit` via `sys.exit()`, which is not an `Exception` and therefore
bypasses the `except Exception` handler: in the too-short branch the script
rolls the group back itself before the alert, while in the missing-view-type
branch the group is left open. -/
noncomputable def create_3_click_section (env : Env) : RunResult :=
  if env.viewIsPlan = false then
    ⟨["Please run this tool from a Floor or Ceiling Plan."], .notStarted, [], false, false, true⟩
  else if env.hasLevel = false then
    ⟨["Current view does not have an associated level."], .notStarted, [], false, false, true⟩
  else
    match env.pick1 with
    | .exn m => handlerResult m []
    | .ok pt_start =>
      let p1 : XYZ := ⟨pt_start.x, pt_start.y, 0⟩
      let crumb_ids : List ℕ := [1, 2]
      match env.pick2 with
      | .exn m => handlerResult m crumb_ids
      | .ok pt_end_raw =>
        let p2 := snap_ortho_with_tolerance p1 ⟨pt_end_raw.x, pt_end_raw.y, 0⟩
          ORTHO_TOLERANCE_DEGREES
        if (p2 - p1).GetLength < mm_to_ft MIN_SECTION_LENGTH_MM then
          ⟨["Section line is too short (<50mm)."], .rolledBack, crumb_ids, false, false, true⟩
        else
          let temp_ids : List ℕ := crumb_ids ++ [3]
          match env.pick3 with
          | .exn m => handlerResult m temp_ids
          | .ok _ =>
            if env.sectionTypeAvailable = false then
              ⟨["No Section View Type found."], .openLeft, temp_ids, false, false, true⟩
            else
              ⟨[], .assimilated, temp_ids, true, true, false⟩

/-- Overlay artifacts that persist in the document after the run: inner
transactions only take effect once the outer group is assimilated, and the
assimilating path first commits the transaction that deletes them. -/
def persistedOverlays (r : RunResult) : List ℕ :=
  if r.tg = .assimilated then
    (if r.overlayDeleteCommitted then [] else r.overlaysCommitted)
  else []

/-- Whether a section view persists in the document after the run. -/
def persistedSection (r : RunResult) : Bool :=
  decide (r.tg = .assimilated) && r.sectionCreated

/-- Unfolded form of `snap_ortho_with_tolerance`, convenient for case splits. -/
theorem snap_ortho_eq (p1 p2 : XYZ) (t : ℝ) :
    snap_ortho_with_tolerance p1 p2 t =
      if (p2 - p1).GetLength < 0.001 then p2
      else if |(p2 - p1).x / (p2 - p1).GetLength| > Real.cos (t * Real.pi / 180) then
        ⟨p2.x, p1.y, p2.z⟩
      else if |(p2 - p1).y / (p2 - p1).GetLength| > Real.cos (t * Real.pi / 180) then
        ⟨p1.x, p2.y, p2.z⟩
      else p2 := rfl

/-- The angle, in degrees (always in [0, 90]), between the direction of
`p2 - p1` and the X axis; used to state the ortho-snap tolerance property. -/
noncomputable def angle_to_x_axis_deg (p1 p2 : XYZ) : ℝ :=
  Real.arccos (|(p2 - p1).x| / (p2 - p1).GetLength) * (180 / Real.pi)

/-- Degrees/radians comparison: `x * (180 / pi) < t` iff `x < t * pi / 180`. -/
theorem deg_lt_iff (x t : ℝ) : x * (180 / Real.pi) < t ↔ x < t * Real.pi / 180 := by
  rw [show x * (180 / Real.pi) = x * 180 / Real.pi by ring, div_lt_iff₀ Real.pi_pos,
    lt_div_iff₀ (show (0 : ℝ) < 180 by norm_num)]

/-- C7: the view direction resolved from the candidate perpendicular and the
vector to the third pick (script lines 188-195) always has a nonnegative dot
product with that reference vector. -/
theorem c7_resolve_view_direction_nonneg (ortho_dir vec_to_depth : XYZ) :
    0 ≤ (resolve_view_direction ortho_dir vec_to_depth).DotProduct vec_to_depth := by
  unfold resolve_view_direction
  split_ifs with h
  · have hneg : (-ortho_dir).DotProduct vec_to_depth =
        -(ortho_dir.DotProduct vec_to_depth) := by
      simp only [XYZ.neg_def, XYZ.DotProduct]
      ring
    rw [hneg]
    linarith
  · linarith

/-- C9: `snap_ortho_with_tolerance` never touches the Z coordinate, and when
it modifies the second point it changes exactly one coordinate: a horizontal
snap changes only Y (X and Z of `p2` are preserved) and a vertical snap
changes only X (Y and Z of `p2` are preserved). -/
theorem c9_snap_ortho_frame (p1 p2 : XYZ) (t : ℝ) :
    (snap_ortho_with_tolerance p1 p2 t).z = p2.z ∧
      (snap_ortho_with_tolerance p1 p2 t = p2 ∨
        snap_ortho_with_tolerance p1 p2 t = ⟨p2.x, p1.y, p2.z⟩ ∨
        snap_ortho_with_tolerance p1 p2 t = ⟨p1.x, p2.y, p2.z⟩) := by
  rw [snap_ortho_eq]
  split_ifs <;> simp

/-- C2: when the raw projected depth is strictly below the converted minimum
the final depth is the converted default (which is neither the minimum nor
the raw value); a raw depth exactly at the minimum is kept as-is. -/
theorem c2_depth_below_min_replaced_by_default (view_dir vec_to_depth : XYZ) :
    (|view_dir.DotProduct vec_to_depth| < mm_to_ft MIN_DEPTH_MM →
        compute_depth view_dir vec_to_depth = mm_to_ft DEFAULT_DEPTH_MM ∧
        compute_depth view_dir vec_to_depth ≠ mm_to_ft MIN_DEPTH_MM ∧
        compute_depth view_dir vec_to_depth ≠ |view_dir.DotProduct vec_to_depth|) ∧
      (|view_dir.DotProduct vec_to_depth| = mm_to_ft MIN_DEPTH_MM →
        compute_depth view_dir vec_to_depth = |view_dir.DotProduct vec_to_depth|) := by
  have hlt : mm_to_ft MIN_DEPTH_MM < mm_to_ft DEFAULT_DEPTH_MM := by
    unfold mm_to_ft MIN_DEPTH_MM DEFAULT_DEPTH_MM
    norm_num
  constructor
  · intro h
    have hres : compute_depth view_dir vec_to_depth = mm_to_ft DEFAULT_DEPTH_MM := by
      unfold compute_depth
      simp only [if_pos h]
    refine ⟨hres, ?_, ?_⟩
    · rw [hres]
      exact ne_of_gt hlt
    · rw [hres]
      intro hc
      rw [hc] at hlt
      linarith
  · intro h
    unfold compute_depth
    simp only [if_neg (not_lt.mpr h.ge)]

/-- Witness for C2 at the two concrete raw depths 10mm (below the 50mm
minimum) and exactly 50mm. -/
theorem c2_depth_witness :
    (|XYZ.DotProduct ⟨0, 1, 0⟩ ⟨0, 10 / 304.8, 0⟩| < mm_to_ft MIN_DEPTH_MM ∧
        compute_depth ⟨0, 1, 0⟩ ⟨0, 10 / 304.8, 0⟩ = mm_to_ft DEFAULT_DEPTH_MM) ∧
      (|XYZ.DotProduct ⟨0, 1, 0⟩ ⟨0, 50 / 304.8, 0⟩| = mm_to_ft MIN_DEPTH_MM ∧
        compute_depth ⟨0, 1, 0⟩ ⟨0, 50 / 304.8, 0⟩ =
          |XYZ.DotProduct ⟨0, 1, 0⟩ ⟨0, 50 / 304.8, 0⟩|) := by
  have h1 : |XYZ.DotProduct ⟨0, 1, 0⟩ ⟨0, 10 / 304.8, 0⟩| < mm_to_ft MIN_DEPTH_MM := by
    simp only [XYZ.DotProduct, mm_to_ft, MIN_DEPTH_MM]
    rw [abs_of_nonneg (by norm_num)]
    norm_num
  have h2 : |XYZ.DotProduct ⟨0, 1, 0⟩ ⟨0, 50 / 304.8, 0⟩| = mm_to_ft MIN_DEPTH_MM := by
    simp only [XYZ.DotProduct, mm_to_ft, MIN_DEPTH_MM]
    rw [abs_of_nonneg (by norm_num)]
    norm_num
  exact ⟨⟨h1, ((c2_depth_below_min_replaced_by_default _ _).1 h1).1⟩,
    ⟨h2, (c2_depth_below_min_replaced_by_default _ _).2 h2⟩⟩

/-- C8: for an in-plane, nonzero line vector, the normalized cross product
with the vertical axis (script line 188) is unit length and orthogonal to
the line vector. -/
theorem c8_perpendicular_direction_unit_orthogonal (v : XYZ)
    (hz : v.z = 0) (hv : v ≠ ⟨0, 0, 0⟩) :
    (perpendicular_direction v).GetLength = 1 ∧
      (perpendicular_direction v).DotProduct v = 0 := by
  have hc : v.CrossProduct XYZ.basisZ = ⟨v.y, -v.x, 0⟩ := by
    simp [XYZ.CrossProduct, XYZ.basisZ]
  have hxy : v.x ≠ 0 ∨ v.y ≠ 0 := by
    by_contra hcon
    push_neg at hcon
    exact hv (by ext <;> simp [hcon.1, hcon.2, hz])
  have hpos : 0 < v.x ^ 2 + v.y ^ 2 := by
    rcases hxy with hx | hy
    · nlinarith [pow_two_pos_of_ne_zero hx, sq_nonneg v.y]
    · nlinarith [pow_two_pos_of_ne_zero hy, sq_nonneg v.x]
  have hn : Real.sqrt (v.x ^ 2 + v.y ^ 2) ≠ 0 := (Real.sqrt_pos.mpr hpos).ne'
  have hlen : XYZ.GetLength ⟨v.y, -v.x, 0⟩ = Real.sqrt (v.x ^ 2 + v.y ^ 2) := by
    unfold XYZ.GetLength
    congr 1
    ring
  have hpd : perpendicular_direction v =
      ⟨v.y / Real.sqrt (v.x ^ 2 + v.y ^ 2), -v.x / Real.sqrt (v.x ^ 2 + v.y ^ 2), 0⟩ := by
    unfold perpendicular_direction XYZ.Normalize
    rw [hc, hlen, if_neg hn]
    norm_num
  constructor
  · rw [hpd]
    unfold XYZ.GetLength
    have harg : (v.y / Real.sqrt (v.x ^ 2 + v.y ^ 2)) ^ 2 +
        (-v.x / Real.sqrt (v.x ^ 2 + v.y ^ 2)) ^ 2 + (0 : ℝ) ^ 2 = 1 := by
      field_simp
      ring
    rw [show ((⟨v.y / Real.sqrt (v.x ^ 2 + v.y ^ 2),
        -v.x / Real.sqrt (v.x ^ 2 + v.y ^ 2), 0⟩ : XYZ).x ^ 2 +
        (⟨v.y / Real.sqrt (v.x ^ 2 + v.y ^ 2),
        -v.x / Real.sqrt (v.x ^ 2 + v.y ^ 2), 0⟩ : XYZ).y ^ 2 +
        (⟨v.y / Real.sqrt (v.x ^ 2 + v.y ^ 2),
        -v.x / Real.sqrt (v.x ^ 2 + v.y ^ 2), 0⟩ : XYZ).z ^ 2) =
        ((v.y / Real.sqrt (v.x ^ 2 + v.y ^ 2)) ^ 2 +
        (-v.x / Real.sqrt (v.x ^ 2 + v.y ^ 2)) ^ 2 + (0 : ℝ) ^ 2) from rfl]
    rw [harg, Real.sqrt_one]
  · rw [hpd]
    unfold XYZ.DotProduct
    field_simp
    ring

/-- Witness for C8 at the concrete line vector (1, 0, 0). -/
theorem c8_perpendicular_direction_witness :
    (XYZ.mk 1 0 0).z = 0 ∧ (XYZ.mk 1 0 0) ≠ ⟨0, 0, 0⟩ ∧
      (perpendicular_direction ⟨1, 0, 0⟩).GetLength = 1 ∧
      (perpendicular_direction ⟨1, 0, 0⟩).DotProduct ⟨1, 0, 0⟩ = 0 := by
  have hz : (XYZ.mk 1 0 0).z = 0 := rfl
  have hv : (XYZ.mk 1 0 0) ≠ ⟨0, 0, 0⟩ := by
    intro h
    have hx := congrArg XYZ.x h
    norm_num at hx
  obtain ⟨h1, h2⟩ := c8_perpendicular_direction_unit_orthogonal ⟨1, 0, 0⟩ hz hv
  exact ⟨hz, hv, h1, h2⟩

/-- C10: applying the ortho snap to its own output returns that output
unchanged, for every pair of points and every tolerance. -/
theorem c10_snap_ortho_idempotent (p1 p2 : XYZ) (t : ℝ) :
    snap_ortho_with_tolerance p1 (snap_ortho_with_tolerance p1 p2 t) t =
      snap_ortho_with_tolerance p1 p2 t := by
  obtain ⟨x1, y1, z1⟩ := p1
  obtain ⟨x2, y2, z2⟩ := p2
  have hsub : (⟨x2, y2, z2⟩ - ⟨x1, y1, z1⟩ : XYZ) = ⟨x2 - x1, y2 - y1, z2 - z1⟩ := rfl
  have hr0 : snap_ortho_with_tolerance ⟨x1, y1, z1⟩ ⟨x2, y2, z2⟩ t =
      if XYZ.GetLength ⟨x2 - x1, y2 - y1, z2 - z1⟩ < 0.001 then ⟨x2, y2, z2⟩
      else if |(x2 - x1) / XYZ.GetLength ⟨x2 - x1, y2 - y1, z2 - z1⟩| >
          Real.cos (t * Real.pi / 180) then ⟨x2, y1, z2⟩
      else if |(y2 - y1) / XYZ.GetLength ⟨x2 - x1, y2 - y1, z2 - z1⟩| >
          Real.cos (t * Real.pi / 180) then ⟨x1, y2, z2⟩
      else ⟨x2, y2, z2⟩ := by
    rw [snap_ortho_eq, hsub]
  by_cases h1 : XYZ.GetLength ⟨x2 - x1, y2 - y1, z2 - z1⟩ < 0.001
  · have hr : snap_ortho_with_tolerance ⟨x1, y1, z1⟩ ⟨x2, y2, z2⟩ t = ⟨x2, y2, z2⟩ := by
      rw [hr0, if_pos h1]
    rw [hr]
    exact hr
  · have hL : (0 : ℝ) < XYZ.GetLength ⟨x2 - x1, y2 - y1, z2 - z1⟩ :=
      lt_of_lt_of_le (by norm_num) (not_lt.mp h1)
    by_cases h2 : |(x2 - x1) / XYZ.GetLength ⟨x2 - x1, y2 - y1, z2 - z1⟩| >
        Real.cos (t * Real.pi / 180)
    · -- horizontal snap fired: the output is ⟨x2, y1, z2⟩
      have hr : snap_ortho_with_tolerance ⟨x1, y1, z1⟩ ⟨x2, y2, z2⟩ t = ⟨x2, y1, z2⟩ := by
        rw [hr0, if_neg h1, if_pos h2]
      rw [hr]
      have hsubH : (⟨x2, y1, z2⟩ - ⟨x1, y1, z1⟩ : XYZ) = ⟨x2 - x1, 0, z2 - z1⟩ := by
        simp [XYZ.sub_def]
      have hrH : snap_ortho_with_tolerance ⟨x1, y1, z1⟩ ⟨x2, y1, z2⟩ t =
          if XYZ.GetLength ⟨x2 - x1, 0, z2 - z1⟩ < 0.001 then ⟨x2, y1, z2⟩
          else if |(x2 - x1) / XYZ.GetLength ⟨x2 - x1, 0, z2 - z1⟩| >
              Real.cos (t * Real.pi / 180) then ⟨x2, y1, z2⟩
          else if |(0 : ℝ) / XYZ.GetLength ⟨x2 - x1, 0, z2 - z1⟩| >
              Real.cos (t * Real.pi / 180) then ⟨x1, y1, z2⟩
          else ⟨x2, y1, z2⟩ := by
        rw [snap_ortho_eq, hsubH]
      rw [hrH]
      by_cases hs : XYZ.GetLength ⟨x2 - x1, 0, z2 - z1⟩ < 0.001
      · rw [if_pos hs]
      · have hLpos : (0 : ℝ) < XYZ.GetLength ⟨x2 - x1, 0, z2 - z1⟩ :=
          lt_of_lt_of_le (by norm_num) (not_lt.mp hs)
        have hLL : XYZ.GetLength ⟨x2 - x1, 0, z2 - z1⟩ ≤
            XYZ.GetLength ⟨x2 - x1, y2 - y1, z2 - z1⟩ := by
          unfold XYZ.GetLength
          apply Real.sqrt_le_sqrt
          dsimp only
          nlinarith [sq_nonneg (y2 - y1)]
        have hcond : |(x2 - x1) / XYZ.GetLength ⟨x2 - x1, 0, z2 - z1⟩| >
            Real.cos (t * Real.pi / 180) := by
          rw [abs_div, abs_of_pos hLpos]
          rw [abs_div, abs_of_pos hL] at h2
          calc Real.cos (t * Real.pi / 180)
              < |x2 - x1| / XYZ.GetLength ⟨x2 - x1, y2 - y1, z2 - z1⟩ := h2
            _ ≤ |x2 - x1| / XYZ.GetLength ⟨x2 - x1, 0, z2 - z1⟩ := by gcongr
        rw [if_neg hs, if_pos hcond]
    · by_cases h3 : |(y2 - y1) / XYZ.GetLength ⟨x2 - x1, y2 - y1, z2 - z1⟩| >
          Real.cos (t * Real.pi / 180)
      · -- vertical snap fired: the output is ⟨x1, y2, z2⟩
        have hthr0 : (0 : ℝ) ≤ Real.cos (t * Real.pi / 180) :=
          le_trans (abs_nonneg _) (not_lt.mp h2)
        have hr : snap_ortho_with_tolerance ⟨x1, y1, z1⟩ ⟨x2, y2, z2⟩ t = ⟨x1, y2, z2⟩ := by
          rw [hr0, if_neg h1, if_neg h2, if_pos h3]
        rw [hr]
        have hsubV : (⟨x1, y2, z2⟩ - ⟨x1, y1, z1⟩ : XYZ) = ⟨0, y2 - y1, z2 - z1⟩ := by
          simp [XYZ.sub_def]
        have hrV : snap_ortho_with_tolerance ⟨x1, y1, z1⟩ ⟨x1, y2, z2⟩ t =
            if XYZ.GetLength ⟨0, y2 - y1, z2 - z1⟩ < 0.001 then ⟨x1, y2, z2⟩
            else if |(0 : ℝ) / XYZ.GetLength ⟨0, y2 - y1, z2 - z1⟩| >
                Real.cos (t * Real.pi / 180) then ⟨x1, y1, z2⟩
            else if |(y2 - y1) / XYZ.GetLength ⟨0, y2 - y1, z2 - z1⟩| >
                Real.cos (t * Real.pi / 180) then ⟨x1, y2, z2⟩
            else ⟨x1, y2, z2⟩ := by
          rw [snap_ortho_eq, hsubV]
        rw [hrV]
        by_cases hs : XYZ.GetLength ⟨0, y2 - y1, z2 - z1⟩ < 0.001
        · rw [if_pos hs]
        · have hLpos : (0 : ℝ) < XYZ.GetLength ⟨0, y2 - y1, z2 - z1⟩ :=
            lt_of_lt_of_le (by norm_num) (not_lt.mp hs)
          have hfirst : ¬ (|(0 : ℝ) / XYZ.GetLength ⟨0, y2 - y1, z2 - z1⟩| >
              Real.cos (t * Real.pi / 180)) := by
            rw [zero_div, abs_zero]
            exact not_lt.mpr hthr0
          have hLL : XYZ.GetLength ⟨0, y2 - y1, z2 - z1⟩ ≤
              XYZ.GetLength ⟨x2 - x1, y2 - y1, z2 - z1⟩ := by
            unfold XYZ.GetLength
            apply Real.sqrt_le_sqrt
            dsimp only
            nlinarith [sq_nonneg (x2 - x1)]
          have hcond : |(y2 - y1) / XYZ.GetLength ⟨0, y2 - y1, z2 - z1⟩| >
              Real.cos (t * Real.pi / 180) := by
            rw [abs_div, abs_of_pos hLpos]
            rw [abs_div, abs_of_pos hL] at h3
            calc Real.cos (t * Real.pi / 180)
                < |y2 - y1| / XYZ.GetLength ⟨x2 - x1, y2 - y1, z2 - z1⟩ := h3
              _ ≤ |y2 - y1| / XYZ.GetLength ⟨0, y2 - y1, z2 - z1⟩ := by gcongr
          rw [if_neg hs, if_neg hfirst, if_pos hcond]
      · -- no snap: the output is the raw second point
        have hr : snap_ortho_with_tolerance ⟨x1, y1, z1⟩ ⟨x2, y2, z2⟩ t = ⟨x2, y2, z2⟩ := by
          rw [hr0, if_neg h1, if_neg h2, if_neg h3]
        rw [hr]
        exact hr

/-- C1: for a non-degenerate in-plane segment and tolerance `t` in [0, 90],
the snap (script lines 62-88) sets `p2.y = p1.y` exactly when the direction
angle to the X axis is within `t` (checked first), else sets `p2.x = p1.x`
exactly when the angle is within `t` of the Y axis, else returns `p2`
unchanged — i.e. axis alignment is forced iff `min(theta, 90 - theta) < t`.
At `t = 0` the output equals the input; at `t = 90` it is axis-aligned. -/
theorem c1_snap_ortho_tolerance_characterization (p1 p2 : XYZ) (t : ℝ)
    (hz : p2.z = p1.z) (hlen : 0.001 ≤ (p2 - p1).GetLength)
    (ht0 : 0 ≤ t) (ht90 : t ≤ 90) :
    (snap_ortho_with_tolerance p1 p2 t =
      if angle_to_x_axis_deg p1 p2 < t then ⟨p2.x, p1.y, p2.z⟩
      else if 90 - angle_to_x_axis_deg p1 p2 < t then ⟨p1.x, p2.y, p2.z⟩
      else p2) ∧
    (t = 0 → snap_ortho_with_tolerance p1 p2 t = p2) ∧
    (t = 90 → ((snap_ortho_with_tolerance p1 p2 t).y = p1.y ∨
      (snap_ortho_with_tolerance p1 p2 t).x = p1.x)) := by
  have hpi := Real.pi_pos
  have hL : (0 : ℝ) < (p2 - p1).GetLength := lt_of_lt_of_le (by norm_num) hlen
  have hzv : (p2 - p1).z = 0 := by
    rw [XYZ.sub_def]
    dsimp only
    rw [hz, sub_self]
  have hL2 : (p2 - p1).GetLength ^ 2 = (p2 - p1).x ^ 2 + (p2 - p1).y ^ 2 := by
    unfold XYZ.GetLength
    rw [Real.sq_sqrt (by positivity)]
    rw [hzv]
    ring
  set a := |(p2 - p1).x| / (p2 - p1).GetLength with ha_def
  set b := |(p2 - p1).y| / (p2 - p1).GetLength with hb_def
  have ha0 : 0 ≤ a := div_nonneg (abs_nonneg _) hL.le
  have hb0 : 0 ≤ b := div_nonneg (abs_nonneg _) hL.le
  have hxle : |(p2 - p1).x| ≤ (p2 - p1).GetLength := by
    rw [← Real.sqrt_sq_eq_abs]
    unfold XYZ.GetLength
    apply Real.sqrt_le_sqrt
    nlinarith [sq_nonneg (p2 - p1).y, sq_nonneg (p2 - p1).z]
  have ha1 : a ≤ 1 := div_le_one_of_le₀ hxle hL.le
  have hab : a ^ 2 + b ^ 2 = 1 := by
    rw [ha_def, hb_def, div_pow, div_pow, sq_abs, sq_abs, div_add_div_same, ← hL2]
    exact div_self (pow_ne_zero 2 hL.ne')
  have hbsq : b ^ 2 = 1 - a ^ 2 := by linarith
  have htr0 : 0 ≤ t * Real.pi / 180 := by positivity
  have htr2 : t * Real.pi / 180 ≤ Real.pi / 2 := by
    nlinarith [mul_nonneg (sub_nonneg.mpr ht90) hpi.le]
  have hth0 : 0 ≤ Real.arccos a := Real.arccos_nonneg a
  have hth2 : Real.arccos a ≤ Real.pi / 2 := Real.arccos_le_pi_div_two.mpr ha0
  have keyA : a > Real.cos (t * Real.pi / 180) ↔ Real.arccos a < t * Real.pi / 180 := by
    constructor
    · intro h
      have harc := Real.strictAntiOn_arccos
        (Set.mem_Icc.mpr ⟨Real.neg_one_le_cos _, Real.cos_le_one _⟩)
        (Set.mem_Icc.mpr ⟨by linarith, ha1⟩) h
      rwa [Real.arccos_cos htr0 (by linarith)] at harc
    · intro h
      have hlt := Real.cos_lt_cos_of_nonneg_of_le_pi hth0 (by linarith) h
      rwa [Real.cos_arccos (by linarith) ha1] at hlt
  have hbsin : b = Real.sin (Real.arccos a) := by
    rw [Real.sin_arccos, ← hbsq]
    exact (Real.sqrt_sq hb0).symm
  have keyB : b > Real.cos (t * Real.pi / 180) ↔
      Real.pi / 2 - Real.arccos a < t * Real.pi / 180 := by
    have m1 : Real.pi / 2 - t * Real.pi / 180 ∈ Set.Icc (-(Real.pi / 2)) (Real.pi / 2) :=
      Set.mem_Icc.mpr ⟨by linarith, by linarith⟩
    have m2 : Real.arccos a ∈ Set.Icc (-(Real.pi / 2)) (Real.pi / 2) :=
      Set.mem_Icc.mpr ⟨by linarith, hth2⟩
    rw [hbsin, show Real.cos (t * Real.pi / 180) =
      Real.sin (Real.pi / 2 - t * Real.pi / 180) from (Real.sin_pi_div_two_sub _).symm]
    constructor
    · intro h
      have := (Real.strictMonoOn_sin.lt_iff_lt m1 m2).mp h
      linarith
    · intro h
      exact (Real.strictMonoOn_sin.lt_iff_lt m1 m2).mpr (by linarith)
  have condA : (|(p2 - p1).x / (p2 - p1).GetLength| > Real.cos (t * Real.pi / 180)) ↔
      (angle_to_x_axis_deg p1 p2 < t) := by
    have e : |(p2 - p1).x / (p2 - p1).GetLength| = a := by
      rw [ha_def, abs_div, abs_of_pos hL]
    rw [e]
    unfold angle_to_x_axis_deg
    rw [← ha_def, deg_lt_iff]
    exact keyA
  have condB : (|(p2 - p1).y / (p2 - p1).GetLength| > Real.cos (t * Real.pi / 180)) ↔
      (90 - angle_to_x_axis_deg p1 p2 < t) := by
    have e : |(p2 - p1).y / (p2 - p1).GetLength| = b := by
      rw [hb_def, abs_div, abs_of_pos hL]
    rw [e]
    unfold angle_to_x_axis_deg
    rw [← ha_def]
    have e90 : 90 - Real.arccos a * (180 / Real.pi) =
        (Real.pi / 2 - Real.arccos a) * (180 / Real.pi) := by
      field_simp
      ring
    rw [e90, deg_lt_iff]
    exact keyB
  have hdeg0 : 0 ≤ angle_to_x_axis_deg p1 p2 := by
    unfold angle_to_x_axis_deg
    rw [← ha_def]
    exact mul_nonneg hth0 (by positivity)
  have hdeg90 : angle_to_x_axis_deg p1 p2 ≤ 90 := by
    unfold angle_to_x_axis_deg
    rw [← ha_def]
    have hmul := mul_le_mul_of_nonneg_right hth2 (show (0 : ℝ) ≤ 180 / Real.pi by positivity)
    calc Real.arccos a * (180 / Real.pi) ≤ Real.pi / 2 * (180 / Real.pi) := hmul
      _ = 90 := by
          field_simp
          ring
  have hmain : snap_ortho_with_tolerance p1 p2 t =
      if angle_to_x_axis_deg p1 p2 < t then ⟨p2.x, p1.y, p2.z⟩
      else if 90 - angle_to_x_axis_deg p1 p2 < t then ⟨p1.x, p2.y, p2.z⟩
      else p2 := by
    rw [snap_ortho_eq, if_neg (not_lt.mpr hlen)]
    exact if_congr condA rfl (if_congr condB rfl rfl)
  refine ⟨hmain, ?_, ?_⟩
  · intro ht
    subst ht
    rw [hmain, if_neg (not_lt.mpr hdeg0), if_neg (not_lt.mpr (by linarith))]
  · intro ht
    subst ht
    rw [hmain]
    by_cases hc : angle_to_x_axis_deg p1 p2 < 90
    · rw [if_pos hc]
      left
      rfl
    · rw [if_neg hc, if_pos (by linarith)]
      right
      rfl

/-- Witness for C1 at `p1 = (0,0,0)`, `p2 = (1,0,0)`, tolerance 45 degrees. -/
theorem c1_snap_ortho_witness :
    (XYZ.mk 1 0 0).z = (XYZ.mk 0 0 0).z ∧
      (0.001 : ℝ) ≤ ((⟨1, 0, 0⟩ : XYZ) - ⟨0, 0, 0⟩).GetLength ∧
      ((0 : ℝ) ≤ 45 ∧ (45 : ℝ) ≤ 90) ∧
      (snap_ortho_with_tolerance ⟨0, 0, 0⟩ ⟨1, 0, 0⟩ 45 =
        if angle_to_x_axis_deg ⟨0, 0, 0⟩ ⟨1, 0, 0⟩ < 45 then ⟨1, 0, 0⟩
        else if 90 - angle_to_x_axis_deg ⟨0, 0, 0⟩ ⟨1, 0, 0⟩ < 45 then ⟨0, 0, 0⟩
        else ⟨1, 0, 0⟩) := by
  have hz : (XYZ.mk 1 0 0).z = (XYZ.mk 0 0 0).z := rfl
  have hlen : (0.001 : ℝ) ≤ ((⟨1, 0, 0⟩ : XYZ) - ⟨0, 0, 0⟩).GetLength := by
    have he : ((⟨1, 0, 0⟩ : XYZ) - ⟨0, 0, 0⟩).GetLength = 1 := by
      show Real.sqrt (((1 : ℝ) - 0) ^ 2 + ((0 : ℝ) - 0) ^ 2 + ((0 : ℝ) - 0) ^ 2) = 1
      rw [show ((1 : ℝ) - 0) ^ 2 + ((0 : ℝ) - 0) ^ 2 + ((0 : ℝ) - 0) ^ 2 = 1 by norm_num]
      exact Real.sqrt_one
    rw [he]
    norm_num
  exact ⟨hz, hlen, ⟨by norm_num, by norm_num⟩,
    (c1_snap_ortho_tolerance_characterization ⟨0, 0, 0⟩ ⟨1, 0, 0⟩ 45 hz hlen
      (by norm_num) (by norm_num)).1⟩

/-- Behaviour of the scan inside `get_upper_level` on an id-unique,
elevation-unique, ascending list: it returns the least strictly-higher
level, or `none` when the current level is the highest. -/
theorem find_next_level_spec (cur : Level) :
    ∀ s : List Level, cur ∈ s → (s.map Level.id).Nodup →
      (s.map Level.elevation).Nodup →
      s.Pairwise (fun a b => a.elevation ≤ b.elevation) →
      ((find_next_level cur s = none → ∀ l ∈ s, l.elevation ≤ cur.elevation) ∧
        (∀ u, find_next_level cur s = some u →
          u ∈ s ∧ cur.elevation < u.elevation ∧
            ∀ l ∈ s, cur.elevation < l.elevation → u.elevation ≤ l.elevation)) := by
  intro s
  induction s with
  | nil =>
    intro hmem
    exact absurd hmem (List.not_mem_nil cur)
  | cons a rest ih =>
    intro hmem hids helev hsort
    rw [List.map_cons, List.nodup_cons] at hids helev
    by_cases hid : a.id = cur.id
    · have hacur : a = cur := by
        rcases List.mem_cons.mp hmem with h | h
        · exact h.symm
        · exact absurd (hid ▸ List.mem_map_of_mem Level.id h) hids.1
      subst hacur
      have hfind : find_next_level a (a :: rest) = rest.head? := by
        simp [find_next_level]
      constructor
      · intro hnone l hl
        rw [hfind] at hnone
        have hrest : rest = [] := List.head?_eq_none_iff.mp hnone
        subst hrest
        rcases List.mem_cons.mp hl with h | h
        · rw [h]
        · exact absurd h (List.not_mem_nil l)
      · intro u hu
        rw [hfind] at hu
        obtain ⟨rest', hrest⟩ := List.head?_eq_some_iff.mp hu
        subst hrest
        have hle : a.elevation ≤ u.elevation :=
          (List.pairwise_cons.mp hsort).1 u (by simp)
        have hne : a.elevation ≠ u.elevation := by
          intro hcon
          exact helev.1 (by rw [hcon]; simp)
        refine ⟨by simp, lt_of_le_of_ne hle hne, ?_⟩
        intro l hl hgt
        rcases List.mem_cons.mp hl with h | h
        · rw [h] at hgt
          exact absurd hgt (lt_irrefl _)
        · rcases List.mem_cons.mp h with h2 | h2
          · rw [h2]
          · exact (List.pairwise_cons.mp (List.pairwise_cons.mp hsort).2).1 l h2
    · have hmem' : cur ∈ rest := by
        rcases List.mem_cons.mp hmem with h | h
        · exact absurd (congrArg Level.id h.symm) hid
        · exact h
      have hfind : find_next_level cur (a :: rest) = find_next_level cur rest := by
        simp [find_next_level, hid]
      have hale : ∀ l ∈ rest, a.elevation ≤ l.elevation := (List.pairwise_cons.mp hsort).1
      have hacur_le : a.elevation ≤ cur.elevation := hale cur hmem'
      obtain ⟨ih1, ih2⟩ := ih hmem' hids.2 helev.2 (List.pairwise_cons.mp hsort).2
      constructor
      · intro hnone l hl
        rw [hfind] at hnone
        rcases List.mem_cons.mp hl with h | h
        · rw [h]
          exact hacur_le
        · exact ih1 hnone l h
      · intro u hu
        rw [hfind] at hu
        obtain ⟨humem, hustrict, humin⟩ := ih2 u hu
        refine ⟨List.mem_cons_of_mem a humem, hustrict, ?_⟩
        intro l hl hgt
        rcases List.mem_cons.mp hl with h | h
        · rw [h] at hgt
          linarith
        · exact humin l h hgt

/-- C6: on a level set with pairwise-distinct ids and elevations containing
the current level, `section_height` returns the difference from the current
elevation to the least strictly-higher reference elevation, or the
converted default height when no higher elevation exists. -/
theorem c6_section_height_next_higher (levels : List Level) (cur : Level)
    (hmem : cur ∈ levels)
    (hids : (levels.map Level.id).Nodup)
    (helev : (levels.map Level.elevation).Nodup) :
    ((∀ l ∈ levels, l.elevation ≤ cur.elevation) →
        section_height levels cur = DEFAULT_HEIGHT_FT) ∧
      ((∃ l ∈ levels, cur.elevation < l.elevation) →
        ∃ u ∈ levels, cur.elevation < u.elevation ∧
          (∀ l ∈ levels, cur.elevation < l.elevation → u.elevation ≤ l.elevation) ∧
          section_height levels cur = u.elevation - cur.elevation) := by
  have hperm : List.Perm (levels.mergeSort level_le) levels :=
    List.mergeSort_perm levels level_le
  have hmem_s : cur ∈ levels.mergeSort level_le := hperm.mem_iff.mpr hmem
  have hids_s : ((levels.mergeSort level_le).map Level.id).Nodup :=
    ((hperm.map Level.id).nodup_iff).mpr hids
  have helev_s : ((levels.mergeSort level_le).map Level.elevation).Nodup :=
    ((hperm.map Level.elevation).nodup_iff).mpr helev
  have htrans : ∀ (a b c : Level),
      level_le a b = true → level_le b c = true → level_le a c = true := by
    intro a b c hab hbc
    simp only [level_le, decide_eq_true_eq] at hab hbc ⊢
    exact le_trans hab hbc
  have htotal : ∀ (a b : Level), level_le a b || level_le b a := by
    intro a b
    simp only [level_le, Bool.or_eq_true, decide_eq_true_eq]
    exact le_total a.elevation b.elevation
  have hsort_s : (levels.mergeSort level_le).Pairwise
      (fun a b => a.elevation ≤ b.elevation) := by
    refine (List.sorted_mergeSort htrans htotal levels).imp ?_
    intro a b hab
    simpa [level_le, decide_eq_true_eq] using hab
  obtain ⟨hn, hs⟩ :=
    find_next_level_spec cur (levels.mergeSort level_le) hmem_s hids_s helev_s hsort_s
  cases hfind : find_next_level cur (levels.mergeSort level_le) with
  | none =>
    have hsh : section_height levels cur = DEFAULT_HEIGHT_FT := by
      unfold section_height get_upper_level
      rw [hfind]
    constructor
    · intro _
      exact hsh
    · rintro ⟨l, hl, hgt⟩
      exact absurd hgt (not_lt.mpr (hn hfind l (hperm.mem_iff.mpr hl)))
  | some u =>
    obtain ⟨humem, hustrict, humin⟩ := hs u hfind
    have hsh : section_height levels cur = u.elevation - cur.elevation := by
      unfold section_height get_upper_level
      rw [hfind]
    constructor
    · intro hall
      exact absurd hustrict (not_lt.mpr (hall u (hperm.mem_iff.mp humem)))
    · intro _
      exact ⟨u, hperm.mem_iff.mp humem, hustrict,
        fun l hl hgt => humin l (hperm.mem_iff.mpr hl) hgt, hsh⟩

/-- Witness for C6 on the two-level set ids 1, 2 at elevations 0 and 10. -/
theorem c6_section_height_witness :
    Level.mk 1 0 ∈ [Level.mk 1 0, Level.mk 2 10] ∧
      ([Level.mk 1 0, Level.mk 2 10].map Level.id).Nodup ∧
      ([Level.mk 1 0, Level.mk 2 10].map Level.elevation).Nodup ∧
      (∃ u ∈ [Level.mk 1 0, Level.mk 2 10], (Level.mk 1 0).elevation < u.elevation ∧
        (∀ l ∈ [Level.mk 1 0, Level.mk 2 10],
          (Level.mk 1 0).elevation < l.elevation → u.elevation ≤ l.elevation) ∧
        section_height [Level.mk 1 0, Level.mk 2 10] (Level.mk 1 0) =
          u.elevation - (Level.mk 1 0).elevation) := by
  have hmem : Level.mk 1 0 ∈ [Level.mk 1 0, Level.mk 2 10] := by simp
  have hids : ([Level.mk 1 0, Level.mk 2 10].map Level.id).Nodup := by decide
  have helev : ([Level.mk 1 0, Level.mk 2 10].map Level.elevation).Nodup := by decide
  have hex : ∃ l ∈ [Level.mk 1 0, Level.mk 2 10],
      (Level.mk 1 0).elevation < l.elevation :=
    ⟨Level.mk 2 10, by simp, by norm_num⟩
  exact ⟨hmem, hids, helev,
    (c6_section_height_next_higher _ _ hmem hids helev).2 hex⟩

/-- Length of a vector lying on the X axis. -/
theorem GetLength_x_axis (c : ℝ) (hc : 0 ≤ c) : XYZ.GetLength ⟨c, 0, 0⟩ = c := by
  unfold XYZ.GetLength
  dsimp only
  rw [show c ^ 2 + (0 : ℝ) ^ 2 + (0 : ℝ) ^ 2 = c ^ 2 by ring]
  exact Real.sqrt_sq hc

/-- The snap leaves a non-degenerate point due east of the start unchanged:
the X-axis check fires and rewrites the Y coordinate to its existing value. -/
theorem snap_ortho_pure_x (c : ℝ) (hc : 0.001 ≤ c) :
    snap_ortho_with_tolerance ⟨0, 0, 0⟩ ⟨c, 0, 0⟩ ORTHO_TOLERANCE_DEGREES = ⟨c, 0, 0⟩ := by
  have hcpos : (0 : ℝ) < c := lt_of_lt_of_le (by norm_num) hc
  have hsub : ((⟨c, 0, 0⟩ : XYZ) - ⟨0, 0, 0⟩) = ⟨c, 0, 0⟩ := by
    simp [XYZ.sub_def]
  have hlen : XYZ.GetLength ⟨c, 0, 0⟩ = c := GetLength_x_axis c hcpos.le
  have hcos : Real.cos (ORTHO_TOLERANCE_DEGREES * Real.pi / 180) < 1 := by
    have h0 : (0 : ℝ) < ORTHO_TOLERANCE_DEGREES * Real.pi / 180 := by
      unfold ORTHO_TOLERANCE_DEGREES
      positivity
    have hple : ORTHO_TOLERANCE_DEGREES * Real.pi / 180 ≤ Real.pi := by
      unfold ORTHO_TOLERANCE_DEGREES
      nlinarith [Real.pi_pos]
    calc Real.cos (ORTHO_TOLERANCE_DEGREES * Real.pi / 180)
        < Real.cos 0 := Real.cos_lt_cos_of_nonneg_of_le_pi le_rfl hple h0
      _ = 1 := Real.cos_zero
  rw [snap_ortho_eq, hsub, hlen, if_neg (not_lt.mpr hc), if_pos
    (show |(⟨c, 0, 0⟩ : XYZ).x / c| > Real.cos (ORTHO_TOLERANCE_DEGREES * Real.pi / 180) by
      dsimp only
      rw [div_self hcpos.ne', abs_one]
      exact hcos)]

/-- C3 (amended): whenever a pick request raises mid-session, the handler
rolls the transaction group back — so no overlay or section view persists —
and the run is silent exactly when the raised exception message contains
"Operation canceled". -/
theorem c3_cancellation_rollback (env : Env) (m : String)
    (hview : env.viewIsPlan = true) (hlev : env.hasLevel = true)
    (hcancel : env.pick1 = .exn m ∨
      (∃ q, env.pick1 = .ok q ∧ env.pick2 = .exn m) ∨
      (∃ q r, env.pick1 = .ok q ∧ env.pick2 = .ok r ∧
        ¬ (snap_ortho_with_tolerance ⟨q.x, q.y, 0⟩ ⟨r.x, r.y, 0⟩ ORTHO_TOLERANCE_DEGREES -
            (⟨q.x, q.y, 0⟩ : XYZ)).GetLength < mm_to_ft MIN_SECTION_LENGTH_MM ∧
        env.pick3 = .exn m)) :
    (create_3_click_section env).tg = .rolledBack ∧
      persistedOverlays (create_3_click_section env) = [] ∧
      persistedSection (create_3_click_section env) = false ∧
      (create_3_click_section env).sectionCreated = false ∧
      ((create_3_click_section env).alerts = [] ↔ pyIn "Operation canceled" m = true) := by
  have hrun : ∃ ids, create_3_click_section env = handlerResult m ids := by
    rcases hcancel with h | ⟨q, h1, h2⟩ | ⟨q, r, h1, h2, hlong, h3⟩
    · exact ⟨[], by simp [create_3_click_section, hview, hlev, h]⟩
    · exact ⟨[1, 2], by simp [create_3_click_section, hview, hlev, h1, h2]⟩
    · exact ⟨[1, 2, 3], by simp [create_3_click_section, hview, hlev, h1, h2, hlong, h3]⟩
  obtain ⟨ids, hrun⟩ := hrun
  rw [hrun]
  refine ⟨rfl, by simp [persistedOverlays, handlerResult],
    by simp [persistedSection, handlerResult], rfl, ?_⟩
  by_cases hp : pyIn "Operation canceled" m = true
  · simp [handlerResult, hp]
  · simp [handlerResult, hp]

/-- A run cancelled at the first pick, with the message the host's
operation-canceled exception carries (Revit reports a cancelled
`PickPoint` as "The user aborted the pick operation."). -/
def cancelled_pick_env : Env :=
  { viewIsPlan := true
    hasLevel := true
    pick1 := .exn "The user aborted the pick operation."
    pick2 := .ok ⟨0, 0, 0⟩
    pick3 := .ok ⟨0, 0, 0⟩
    sectionTypeAvailable := true }

/-- C3 counterexample: a run cancelled at the first pick with the host's
documented cancellation message is not silent — the handler's substring test
for "Operation canceled" does not match it, so an error alert is shown. -/
theorem c3_cancellation_not_silent :
    (create_3_click_section cancelled_pick_env).alerts =
      ["Error: The user aborted the pick operation."] ∧
      (create_3_click_section cancelled_pick_env).alerts ≠ [] := by
  have hpy : pyIn "Operation canceled" "The user aborted the pick operation." = false := by
    decide
  have hrun : create_3_click_section cancelled_pick_env =
      handlerResult "The user aborted the pick operation." [] := by
    simp [create_3_click_section, cancelled_pick_env]
  rw [hrun]
  constructor
  · simp [handlerResult, hpy]
  · simp [handlerResult, hpy]

/-- Witness for the amended C3 at a run cancelled at the first pick whose
exception message is exactly "Operation canceled" (the substring the handler
tests for), so the run is silent. -/
theorem c3_cancellation_witness :
    (Env.mk true true (.exn "Operation canceled") (.ok ⟨0, 0, 0⟩) (.ok ⟨0, 0, 0⟩)
        true).viewIsPlan = true ∧
      (Env.mk true true (.exn "Operation canceled") (.ok ⟨0, 0, 0⟩) (.ok ⟨0, 0, 0⟩)
        true).hasLevel = true ∧
      (Env.mk true true (.exn "Operation canceled") (.ok ⟨0, 0, 0⟩) (.ok ⟨0, 0, 0⟩)
        true).pick1 = .exn "Operation canceled" ∧
      ((create_3_click_section (Env.mk true true (.exn "Operation canceled")
          (.ok ⟨0, 0, 0⟩) (.ok ⟨0, 0, 0⟩) true)).tg = .rolledBack ∧
        persistedOverlays (create_3_click_section (Env.mk true true
          (.exn "Operation canceled") (.ok ⟨0, 0, 0⟩) (.ok ⟨0, 0, 0⟩) true)) = [] ∧
        persistedSection (create_3_click_section (Env.mk true true
          (.exn "Operation canceled") (.ok ⟨0, 0, 0⟩) (.ok ⟨0, 0, 0⟩) true)) = false ∧
        (create_3_click_section (Env.mk true true (.exn "Operation canceled")
          (.ok ⟨0, 0, 0⟩) (.ok ⟨0, 0, 0⟩) true)).sectionCreated = false ∧
        ((create_3_click_section (Env.mk true true (.exn "Operation canceled")
            (.ok ⟨0, 0, 0⟩) (.ok ⟨0, 0, 0⟩) true)).alerts = [] ↔
          pyIn "Operation canceled" "Operation canceled" = true)) := by
  exact ⟨rfl, rfl, rfl,
    c3_cancellation_rollback
      (Env.mk true true (.exn "Operation canceled") (.ok ⟨0, 0, 0⟩) (.ok ⟨0, 0, 0⟩) true)
      "Operation canceled" rfl rfl (Or.inl rfl)⟩

/-- C4: with the context valid and the first two picks accepted, the run is
rejected — too-short alert, transaction group rolled back over the committed
breadcrumb overlays, script exited, no section created — exactly when the
snapped segment is strictly shorter than the converted minimum length; a
segment at or above the minimum (in particular exactly at it) is accepted. -/
theorem c4_min_length_boundary (env : Env) (q r : XYZ)
    (hview : env.viewIsPlan = true) (hlev : env.hasLevel = true)
    (h1 : env.pick1 = .ok q) (h2 : env.pick2 = .ok r) :
    create_3_click_section env =
        ⟨["Section line is too short (<50mm)."], .rolledBack, [1, 2], false, false, true⟩ ↔
      (snap_ortho_with_tolerance ⟨q.x, q.y, 0⟩ ⟨r.x, r.y, 0⟩ ORTHO_TOLERANCE_DEGREES -
          (⟨q.x, q.y, 0⟩ : XYZ)).GetLength < mm_to_ft MIN_SECTION_LENGTH_MM := by
  constructor
  · intro h
    by_contra hlong
    cases hp3 : env.pick3 with
    | ok p =>
      simp only [create_3_click_section, hview, hlev, h1, h2, hp3] at h
      rw [if_neg (by norm_num)] at h
      rw [if_neg (by norm_num)] at h
      rw [if_neg hlong] at h
      by_cases hsa : env.sectionTypeAvailable = false
      · rw [if_pos hsa] at h
        simp at h
      · rw [if_neg hsa] at h
        simp at h
    | exn m =>
      simp only [create_3_click_section, hview, hlev, h1, h2, hp3] at h
      rw [if_neg (by norm_num)] at h
      rw [if_neg (by norm_num)] at h
      rw [if_neg hlong] at h
      simp [handlerResult] at h
  · intro hshort
    simp only [create_3_click_section, hview, hlev, h1, h2]
    rw [if_neg (by norm_num), if_neg (by norm_num), if_pos hshort]

/-- A run whose snapped segment has length exactly the converted minimum. -/
noncomputable def exact_min_length_env : Env :=
  { viewIsPlan := true
    hasLevel := true
    pick1 := .ok ⟨0, 0, 0⟩
    pick2 := .ok ⟨mm_to_ft MIN_SECTION_LENGTH_MM, 0, 0⟩
    pick3 := .ok ⟨0, 0, 0⟩
    sectionTypeAvailable := true }

/-- Witness for C4 at a segment of length exactly the converted minimum:
the run is not rejected as too short. -/
theorem c4_min_length_witness :
    exact_min_length_env.viewIsPlan = true ∧ exact_min_length_env.hasLevel = true ∧
      exact_min_length_env.pick1 = .ok ⟨0, 0, 0⟩ ∧
      exact_min_length_env.pick2 = .ok ⟨mm_to_ft MIN_SECTION_LENGTH_MM, 0, 0⟩ ∧
      ¬ (snap_ortho_with_tolerance ⟨0, 0, 0⟩ ⟨mm_to_ft MIN_SECTION_LENGTH_MM, 0, 0⟩
            ORTHO_TOLERANCE_DEGREES -
          (⟨0, 0, 0⟩ : XYZ)).GetLength < mm_to_ft MIN_SECTION_LENGTH_MM ∧
      create_3_click_section exact_min_length_env ≠
        ⟨["Section line is too short (<50mm)."], .rolledBack, [1, 2], false, false, true⟩ := by
  have hmin_pos : (0.001 : ℝ) ≤ mm_to_ft MIN_SECTION_LENGTH_MM := by
    unfold mm_to_ft MIN_SECTION_LENGTH_MM
    norm_num
  have hsnap := snap_ortho_pure_x (mm_to_ft MIN_SECTION_LENGTH_MM) hmin_pos
  have hsub : ((⟨mm_to_ft MIN_SECTION_LENGTH_MM, 0, 0⟩ : XYZ) - ⟨0, 0, 0⟩) =
      ⟨mm_to_ft MIN_SECTION_LENGTH_MM, 0, 0⟩ := by
    simp [XYZ.sub_def]
  have hlong : ¬ (snap_ortho_with_tolerance ⟨0, 0, 0⟩
        ⟨mm_to_ft MIN_SECTION_LENGTH_MM, 0, 0⟩ ORTHO_TOLERANCE_DEGREES -
      (⟨0, 0, 0⟩ : XYZ)).GetLength < mm_to_ft MIN_SECTION_LENGTH_MM := by
    rw [hsnap, hsub, GetLength_x_axis _ (le_trans (by norm_num) hmin_pos)]
    exact lt_irrefl _
  exact ⟨rfl, rfl, rfl, rfl, hlong, fun h => hlong
    ((c4_min_length_boundary exact_min_length_env ⟨0, 0, 0⟩
      ⟨mm_to_ft MIN_SECTION_LENGTH_MM, 0, 0⟩ rfl rfl rfl rfl).mp h)⟩

/-- A run in which no section view-family type resolves at finalization. -/
def no_view_type_env : Env :=
  { viewIsPlan := true
    hasLevel := true
    pick1 := .ok ⟨0, 0, 0⟩
    pick2 := .ok ⟨1, 0, 0⟩
    pick3 := .ok ⟨0, 1, 0⟩
    sectionTypeAvailable := false }

/-- C5 evaluated at the failing input: when no section view-family type
resolves, the script shows the alert and exits with the transaction group
left open — the session neither rolls the group back nor assimilates it,
because `sys.exit` raised by the `exitscript` alert bypasses the
`except Exception` handler. -/
theorem c5_no_view_type_leaves_group_open :
    create_3_click_section no_view_type_env =
        ⟨["No Section View Type found."], .openLeft, [1, 2, 3], false, false, true⟩ ∧
      (create_3_click_section no_view_type_env).tg ≠ .rolledBack ∧
      (create_3_click_section no_view_type_env).tg ≠ .assimilated := by
  have hsnap := snap_ortho_pure_x 1 (by norm_num)
  have hsub : ((⟨1, 0, 0⟩ : XYZ) - ⟨0, 0, 0⟩) = ⟨1, 0, 0⟩ := by
    simp [XYZ.sub_def]
  have hnot : ¬ ((⟨1, 0, 0⟩ : XYZ) - ⟨0, 0, 0⟩).GetLength <
      mm_to_ft MIN_SECTION_LENGTH_MM := by
    rw [hsub, GetLength_x_axis 1 (by norm_num)]
    unfold mm_to_ft MIN_SECTION_LENGTH_MM
    norm_num
  have hrun : create_3_click_section no_view_type_env =
      ⟨["No Section View Type found."], .openLeft, [1, 2, 3], false, false, true⟩ := by
    simp [create_3_click_section, no_view_type_env, hsnap, hnot]
  exact ⟨hrun, by rw [hrun]; simp, by rw [hrun]; simp⟩
